import Mathlib

/-!
Verification of the Kindle PDF translation pipeline core against its
natural-language specification.

The Python sources are shallowly embedded as executable Lean definitions:
  - `backend/app/providers/base.py`     : token estimation and budgeted batching
  - `backend/app/providers/openai_provider.py` : per-batch length check
  - `backend/app/pipeline/extract.py`   : header/footer filtering, de-hyphenation
  - `backend/app/pipeline/translate.py` : translate stage with effect accounting
  - `backend/app/pipeline/flashcards.py`: vocabulary candidate scoring
  - `backend/app/pipeline/__init__.py`  : orchestrator state-update trace

Machine floats in the source (page coordinates, zipf scores, percentages)
are modelled as rationals; Python ints as `Int`/`Nat`; raised exceptions as
`Except String`.
-/

namespace KindlePdf

/-! ## Token budgeter (`backend/app/providers/base.py`) -/

/-- `DEFAULT_MAX_TOKENS` from `providers/base.py`. -/
def DEFAULT_MAX_TOKENS : Int := 4000

/-- `RESERVED_COMPLETION_TOKENS` from `providers/base.py`. -/
def RESERVED_COMPLETION_TOKENS : Int := 500

/-- `estimate_token_count`: heuristic tokenizer, `max(1, (len(text) + 3) // 4)`. -/
def estimate_token_count (text : String) : Nat :=
  max 1 ((text.length + 3) / 4)

/-- Total estimated token cost of a batch (sum of per-text estimates). -/
def batch_cost (b : List String) : Int :=
  (b.map fun t => (estimate_token_count t : Int)).sum

/-- The greedy packing loop of `chunk_by_tokens` (`providers/base.py`
lines 81-107): state is the accumulated `current` batch and its running
token total `currentTokens`. -/
def chunkLoop (budget : Int) : List String → List String → Int → List (List String)
  | [], current, _ =>
      if current.isEmpty then [] else [current]
  | text :: rest, current, currentTokens =>
      let tokens : Int := estimate_token_count text
      if budget < tokens then
        -- single paragraph exceeds the prompt budget; force its own batch
        if current.isEmpty then
          [text] :: chunkLoop budget rest [] 0
        else
          current :: [text] :: chunkLoop budget rest [] 0
      else if budget < currentTokens + tokens ∧ ¬ current.isEmpty then
        current :: chunkLoop budget rest [text] tokens
      else
        chunkLoop budget rest (current ++ [text]) (currentTokens + tokens)

/-- `chunk_by_tokens` (`providers/base.py`): validates the budget
configuration, then splits `texts` into batches respecting the budget.
Raised `ValueError`s are modelled as `Except.error` with the source's
message. -/
def chunk_by_tokens (texts : List String) (max_tokens reserved_tokens : Int) :
    Except String (List (List String)) :=
  if max_tokens ≤ 0 then .error "max_tokens must be positive"
  else if reserved_tokens < 0 then .error "reserved_tokens cannot be negative"
  else if max_tokens - reserved_tokens ≤ 0 then
    .error "reserved_tokens leaves no room for prompts"
  else .ok (chunkLoop (max_tokens - reserved_tokens) texts [] 0)

/-! ### Lemmas about the greedy packing loop -/

theorem chunkLoop_flatten (budget : Int) :
    ∀ (texts current : List String) (ct : Int),
      (chunkLoop budget texts current ct).flatten = current ++ texts := by
  intro texts
  induction texts with
  | nil =>
      intro current ct
      by_cases h : current.isEmpty
      · simp [chunkLoop, h, List.isEmpty_iff.mp h]
      · simp [chunkLoop, h]
  | cons text rest ih =>
      intro current ct
      by_cases h1 : budget < (estimate_token_count text : Int)
      · by_cases h2 : current.isEmpty
        · simp [chunkLoop, h1, h2, ih, List.isEmpty_iff.mp h2]
        · simp [chunkLoop, h1, h2, ih]
      · by_cases h3 : budget < ct + (estimate_token_count text : Int) ∧ ¬ current = []
        · simp [chunkLoop, h1, h3, ih]
        · simp [chunkLoop, h1, h3, ih]

theorem chunkLoop_batches_ok (budget : Int) (hb : 0 < budget) :
    ∀ (texts current : List String) (ct : Int),
      batch_cost current = ct → ct ≤ budget →
      ∀ b ∈ chunkLoop budget texts current ct,
        (∃ t, b = [t] ∧ budget < (estimate_token_count t : Int)) ∨ batch_cost b ≤ budget := by
  intro texts
  induction texts with
  | nil =>
      intro current ct hc hle b hb'
      by_cases h : current.isEmpty
      · simp [chunkLoop, h] at hb'
      · simp [chunkLoop, h] at hb'
        subst hb'
        exact Or.inr (hc ▸ hle)
  | cons text rest ih =>
      intro current ct hc hle b hb'
      by_cases h1 : budget < (estimate_token_count text : Int)
      · by_cases h2 : current.isEmpty
        · simp [chunkLoop, h1, h2] at hb'
          rcases hb' with hb' | hb'
          · exact Or.inl ⟨text, hb', h1⟩
          · exact ih [] 0 (by simp [batch_cost]) (le_of_lt hb) b hb'
        · simp [chunkLoop, h1, h2] at hb'
          rcases hb' with hb' | hb' | hb'
          · subst hb'; exact Or.inr (hc ▸ hle)
          · exact Or.inl ⟨text, hb', h1⟩
          · exact ih [] 0 (by simp [batch_cost]) (le_of_lt hb) b hb'
      · push_neg at h1
        by_cases h3 : budget < ct + (estimate_token_count text : Int) ∧ ¬ current = []
        · simp [chunkLoop, h1.not_lt, h3] at hb'
          rcases hb' with hb' | hb'
          · subst hb'; exact Or.inr (hc ▸ hle)
          · exact ih [text] (estimate_token_count text) (by simp [batch_cost]) h1 b hb'
        · have hstep : chunkLoop budget (text :: rest) current ct =
              chunkLoop budget rest (current ++ [text]) (ct + (estimate_token_count text : Int)) := by
            simp [chunkLoop, h1.not_lt, h3]
          rw [hstep] at hb'
          have hcost : batch_cost (current ++ [text]) = ct + (estimate_token_count text : Int) := by
            simp [batch_cost, hc.symm]
          have hbound : ct + (estimate_token_count text : Int) ≤ budget := by
            rcases not_and_or.mp h3 with h | h
            · exact le_of_not_lt h
            · have hcur : current = [] := not_not.mp h
              have : ct = 0 := by
                rw [← hc, hcur]; simp [batch_cost]
              omega
          exact ih (current ++ [text]) (ct + (estimate_token_count text : Int)) hcost hbound b hb'

theorem chunkLoop_oversized_singleton (budget : Int) :
    ∀ (texts current : List String) (ct : Int) (t : String),
      t ∈ texts → budget < (estimate_token_count t : Int) →
      [t] ∈ chunkLoop budget texts current ct := by
  intro texts
  induction texts with
  | nil => intro _ _ t ht; exact absurd ht (List.not_mem_nil t)
  | cons text rest ih =>
      intro current ct t ht hover
      rcases List.mem_cons.mp ht with rfl | ht'
      · by_cases h2 : current.isEmpty
        · simp [chunkLoop, hover, h2]
        · simp [chunkLoop, hover, h2]
      · by_cases h1 : budget < (estimate_token_count text : Int)
        · by_cases h2 : current.isEmpty
          · simp only [chunkLoop, h1, if_pos, h2, if_true]
            exact List.mem_cons_of_mem _ (ih [] 0 t ht' hover)
          · simp only [chunkLoop, h1, if_pos, h2, if_false, Bool.false_eq_true]
            exact List.mem_cons_of_mem _ (List.mem_cons_of_mem _ (ih [] 0 t ht' hover))
        · push_neg at h1
          by_cases h3 : budget < ct + (estimate_token_count text : Int) ∧ ¬ current = []
          · have hstep : chunkLoop budget (text :: rest) current ct =
                current :: chunkLoop budget rest [text] (estimate_token_count text) := by
              simp [chunkLoop, h1.not_lt, h3]
            rw [hstep]
            exact List.mem_cons_of_mem _ (ih [text] (estimate_token_count text) t ht' hover)
          · have hstep : chunkLoop budget (text :: rest) current ct =
                chunkLoop budget rest (current ++ [text]) (ct + (estimate_token_count text : Int)) := by
              simp [chunkLoop, h1.not_lt, h3]
            rw [hstep]
            exact ih (current ++ [text]) (ct + (estimate_token_count text : Int)) t ht' hover

/-! ### Claim theorems for the token budgeter -/

/-- C3: for every call of `chunk_by_tokens` that returns batches, the
batches concatenate back to exactly the input sequence (same elements,
same order), every batch that is not a singleton made of an over-budget
text has total estimated cost at most `max_tokens - reserved_tokens`, and
every over-budget text occurs as its own singleton batch. -/
theorem chunk_by_tokens_partition_and_budget
    (texts : List String) (max_tokens reserved_tokens : Int)
    (batches : List (List String))
    (h : chunk_by_tokens texts max_tokens reserved_tokens = .ok batches) :
    batches.flatten = texts
    ∧ (∀ b ∈ batches,
        (∃ t, b = [t] ∧ max_tokens - reserved_tokens < (estimate_token_count t : Int))
        ∨ batch_cost b ≤ max_tokens - reserved_tokens)
    ∧ (∀ t ∈ texts,
        max_tokens - reserved_tokens < (estimate_token_count t : Int) → [t] ∈ batches) := by
  unfold chunk_by_tokens at h
  split at h
  · exact absurd h (by simp)
  · split at h
    · exact absurd h (by simp)
    · split at h
      · exact absurd h (by simp)
      · rename_i h1 h2 h3
        have hbatches : batches = chunkLoop (max_tokens - reserved_tokens) texts [] 0 := by
          have := Except.ok.inj h
          exact this.symm
        subst hbatches
        refine ⟨?_, ?_, ?_⟩
        · simpa using chunkLoop_flatten (max_tokens - reserved_tokens) texts [] 0
        · exact chunkLoop_batches_ok (max_tokens - reserved_tokens) (by omega)
            texts [] 0 (by simp [batch_cost]) (by omega)
        · intro t ht hover
          exact chunkLoop_oversized_singleton (max_tokens - reserved_tokens) texts [] 0 t ht hover

/-- Witness for C3 at a concrete input: `max_tokens = 5`,
`reserved_tokens = 2` (budget 3), with one oversized text. -/
theorem chunk_by_tokens_partition_and_budget_witness :
    ([["ab", "cdef"], ["thirteenchars"], ["x"]] : List (List String)).flatten
        = ["ab", "cdef", "thirteenchars", "x"]
    ∧ (∀ b ∈ ([["ab", "cdef"], ["thirteenchars"], ["x"]] : List (List String)),
        (∃ t, b = [t] ∧ (5 : Int) - 2 < (estimate_token_count t : Int))
        ∨ batch_cost b ≤ (5 : Int) - 2)
    ∧ (∀ t ∈ ["ab", "cdef", "thirteenchars", "x"],
        (5 : Int) - 2 < (estimate_token_count t : Int)
        → [t] ∈ ([["ab", "cdef"], ["thirteenchars"], ["x"]] : List (List String))) :=
  chunk_by_tokens_partition_and_budget ["ab", "cdef", "thirteenchars", "x"] 5 2
    [["ab", "cdef"], ["thirteenchars"], ["x"]] (by rfl)

/-- C8: `chunk_by_tokens` fails exactly when `max_tokens ≤ 0`, or
`reserved_tokens < 0`, or the budget `max_tokens - reserved_tokens` is
not positive; otherwise it returns batches. -/
theorem chunk_by_tokens_config_error_iff
    (texts : List String) (max_tokens reserved_tokens : Int) :
    (∃ e, chunk_by_tokens texts max_tokens reserved_tokens = .error e)
      ↔ (max_tokens ≤ 0 ∨ reserved_tokens < 0 ∨ max_tokens - reserved_tokens ≤ 0) := by
  unfold chunk_by_tokens
  constructor
  · rintro ⟨e, he⟩
    by_contra hcon
    push_neg at hcon
    simp [not_le.mpr hcon.1, not_lt.mpr hcon.2.1, not_le.mpr hcon.2.2] at he
  · intro hcfg
    by_cases h1 : max_tokens ≤ 0
    · exact ⟨"max_tokens must be positive", by simp [h1]⟩
    · by_cases h2 : reserved_tokens < 0
      · exact ⟨"reserved_tokens cannot be negative", by simp [h1, h2]⟩
      · have h3 : max_tokens - reserved_tokens ≤ 0 := by
          rcases hcfg with h | h | h
          · exact absurd h h1
          · exact absurd h h2
          · exact h
        exact ⟨"reserved_tokens leaves no room for prompts", by simp [h1, h2, h3]⟩

/-! ## Layout extraction (`backend/app/pipeline/extract.py`)

Page geometry uses rationals in place of Python floats.  The float
products `page_height * 0.12`, `page_height * (1.0 - 0.12)` and
`page_count * 0.6` are modelled as the exact rationals `h * 12/100`,
`h * 88/100` and (after `int(...)` truncation) the natural floor
`3 * page_count / 5`: for the integer page counts involved the double
rounding of the Python products never crosses an integer boundary, so
`int(page_count * 0.6) = 3 * page_count / 5` exactly. -/

/-- Splits a character list into its maximal whitespace-free runs
(the behaviour of Python `str.split()` with no argument). -/
def wsSplitAux : List Char → List Char → List (List Char)
  | [], acc => if acc.isEmpty then [] else [acc.reverse]
  | c :: rest, acc =>
      if c.isWhitespace then
        if acc.isEmpty then wsSplitAux rest [] else acc.reverse :: wsSplitAux rest []
      else
        wsSplitAux rest (c :: acc)

/-- `_normalize_key`: collapse all whitespace runs to a single space and
trim (`_WHITESPACE_RE.sub(" ", text).strip()`, which equals
`" ".join(text.split())`). -/
def _normalize_key (text : String) : String :=
  ⟨List.intercalate [' '] (wsSplitAux text.data [])⟩

/-- Python `str.strip()`: remove leading and trailing whitespace. -/
def pyStrip (s : String) : String :=
  ⟨((s.data.dropWhile Char.isWhitespace).reverse.dropWhile Char.isWhitespace).reverse⟩

/-- Python `str.splitlines()` for the newline-terminated text PyMuPDF
produces, modelled as splitting on `'\n'` (carriage returns are consumed
by the per-line whitespace normalization either way; the extra trailing
empty line this produces is blank and does not change the folded
paragraphs). -/
def pySplitLines (s : String) : List String :=
  (s.splitOn "\n")

/-- Python `current.endswith("-")`. -/
def endsWithDash (s : String) : Bool :=
  s.data.getLast? = some '-'

/-- Python `normalized and normalized[0].islower()`: false on the empty
string, else whether the first character is a lowercase ASCII letter. -/
def frontIsLower (s : String) : Bool :=
  match s.data with
  | [] => false
  | c :: _ => c.isLower

/-- Whether the first character exists and is an uppercase ASCII letter. -/
def frontIsUpper (s : String) : Bool :=
  match s.data with
  | [] => false
  | c :: _ => c.isUpper

/-- The continuation-line join inside `_block_to_paragraphs` (extract.py
lines 52-56): de-hyphenate (`current[:-1] + normalized`) when the
accumulated paragraph ends in `-` and the continuation starts with a
lowercase letter, otherwise join with a single space. -/
def _join_lines (current normalized : String) : String :=
  if endsWithDash current && frontIsLower normalized then
    ⟨current.data.dropLast ++ normalized.data⟩
  else
    current ++ " " ++ normalized

/-- The line-folding loop of `_block_to_paragraphs`: `current` is the
paragraph accumulated so far (`""` encodes Python's empty falsy string). -/
def blockLoop : List String → String → List String
  | [], current => if current ≠ "" then [pyStrip current] else []
  | raw :: rest, current =>
      if _normalize_key raw = "" then
        if current ≠ "" then pyStrip current :: blockLoop rest "" else blockLoop rest ""
      else if current ≠ "" then
        blockLoop rest (_join_lines current (_normalize_key raw))
      else
        blockLoop rest (_normalize_key raw)

/-- `_block_to_paragraphs`: split a block into lines, fold them into
paragraphs (a blank line ends the current paragraph), and drop blank
results. -/
def _block_to_paragraphs (text : String) : List String :=
  (blockLoop (pySplitLines text) "").filter (· ≠ "")

/-- A raw PyMuPDF text block: `(x0, y0, x1, y1, text, block_no, block_type)`;
only the fields the extractor reads are modelled. `blockType = none`
models a tuple without a seventh entry (treated as type 0). -/
structure RawBlock where
  y0 : ℚ
  y1 : ℚ
  text : String
  blockType : Option Int

/-- One parsed page: its height and its raw text blocks. -/
structure PageData where
  height : ℚ
  blocks : List RawBlock

/-- A parsed document is its ordered list of pages. -/
abbrev Document := List PageData

/-- `TextBlock` (extract.py): parsed text block with minimal layout
metadata. -/
structure TextBlock where
  page_index : Nat
  text : String
  key : String
  y0 : ℚ
  y1 : ℚ
deriving DecidableEq

/-- The block-collection filter of `_extract_sync` (lines 116-143): skip
non-text block types, blocks whose stripped text is empty, and blocks
whose normalized key is empty. -/
def collectPageBlocks (pageIndex : Nat) (page : PageData) : List TextBlock :=
  page.blocks.filterMap fun b =>
    if b.blockType = some 0 ∨ b.blockType = none then
      let rawText := pyStrip b.text
      if rawText = "" then none
      else
        let key := _normalize_key rawText
        if key = "" then none
        else some ⟨pageIndex, rawText, key, b.y0, b.y1⟩
    else none

/-- All collected text blocks of the document in page order. -/
def docBlocks (doc : Document) : List TextBlock :=
  (doc.enum.map fun ip => collectPageBlocks ip.1 ip.2).flatten

/-- The header-zone test `y0 <= page_height * HEADER_RATIO` with
`HEADER_RATIO = 0.12`, written in the cross-multiplied integer form
(denominators of rationals are positive); `headerZone_eq_true_iff` below
proves it equivalent to `y0 ≤ h * (12/100)`. -/
def headerZone (y0 h : ℚ) : Bool :=
  decide (100 * y0.num * (h.den : ℤ) ≤ 12 * h.num * (y0.den : ℤ))

/-- The footer-zone test `y1 >= page_height * (1.0 - FOOTER_RATIO)` with
`FOOTER_RATIO = 0.12`, in cross-multiplied integer form;
`footerZone_eq_true_iff` below proves it equivalent to
`h * (88/100) ≤ y1`. -/
def footerZone (y1 h : ℚ) : Bool :=
  decide (88 * h.num * (y1.den : ℤ) ≤ 100 * y1.num * (h.den : ℤ))

theorem headerZone_eq_true_iff (y0 h : ℚ) :
    headerZone y0 h = true ↔ y0 ≤ h * (12 / 100) := by
  unfold headerZone
  rw [decide_eq_true_eq]
  have h1 : (0:ℚ) < (y0.den : ℚ) := by exact_mod_cast y0.den_pos
  have h2 : (0:ℚ) < (h.den : ℚ) * 100 := by
    have : (0:ℚ) < (h.den : ℚ) := by exact_mod_cast h.den_pos
    linarith
  conv_rhs => rw [← Rat.num_div_den y0, ← Rat.num_div_den h]
  rw [div_mul_div_comm]
  rw [div_le_div_iff h1 h2]
  rw [show (100 * y0.num * (h.den : ℤ) ≤ 12 * h.num * (y0.den : ℤ))
        ↔ (((100 * y0.num * h.den : ℤ) : ℚ) ≤ ((12 * h.num * y0.den : ℤ) : ℚ)) from
      Int.cast_le.symm]
  push_cast
  constructor <;> intro hh <;> nlinarith [hh]

theorem footerZone_eq_true_iff (y1 h : ℚ) :
    footerZone y1 h = true ↔ h * (88 / 100) ≤ y1 := by
  unfold footerZone
  rw [decide_eq_true_eq]
  have h1 : (0:ℚ) < (y1.den : ℚ) := by exact_mod_cast y1.den_pos
  have h2 : (0:ℚ) < (h.den : ℚ) * 100 := by
    have : (0:ℚ) < (h.den : ℚ) := by exact_mod_cast h.den_pos
    linarith
  conv_rhs => rw [← Rat.num_div_den y1, ← Rat.num_div_den h]
  rw [div_mul_div_comm]
  rw [div_le_div_iff h2 h1]
  rw [show (88 * h.num * (y1.den : ℤ) ≤ 100 * y1.num * (h.den : ℤ))
        ↔ (((88 * h.num * y1.den : ℤ) : ℚ) ≤ ((100 * y1.num * h.den : ℤ) : ℚ)) from
      Int.cast_le.symm]
  push_cast
  constructor <;> intro hh <;> nlinarith [hh]

/-- The page's set of header-zone keys (`page_header_keys`): keys of
blocks whose top is within the first 12% of the page height; empty when
the page height is zero (Python float falsiness). -/
def pageHeaderKeys (pageIndex : Nat) (page : PageData) : List String :=
  if page.height ≠ 0 then
    (((collectPageBlocks pageIndex page).filter
        fun tb => headerZone tb.y0 page.height).map (·.key)).dedup
  else []

/-- The page's set of footer-zone keys (`page_footer_keys`): keys of
blocks whose bottom is within the last 12% of the page height. -/
def pageFooterKeys (pageIndex : Nat) (page : PageData) : List String :=
  if page.height ≠ 0 then
    (((collectPageBlocks pageIndex page).filter
        fun tb => footerZone tb.y1 page.height).map (·.key)).dedup
  else []

/-- `header_counter[key]`: on how many pages `key` occurs in the header
zone (each page contributes at most once, matching the per-page set). -/
def headerPages (doc : Document) (key : String) : Nat :=
  (doc.enum.filter fun ip => decide (key ∈ pageHeaderKeys ip.1 ip.2)).length

/-- `footer_counter[key]`: on how many pages `key` occurs in the footer
zone. -/
def footerPages (doc : Document) (key : String) : Nat :=
  (doc.enum.filter fun ip => decide (key ∈ pageFooterKeys ip.1 ip.2)).length

/-- `repeat_threshold = max(MIN_REPEAT_COUNT, int(page_count * 0.6))`. -/
def repeatThreshold (pageCount : Nat) : Nat :=
  max 2 (3 * pageCount / 5)

/-- Whether a key is classified as a repeating header/footer: only for
documents with at least 2 pages, and when its header-zone or footer-zone
page count reaches the repeat threshold. -/
def isRepeatingKey (doc : Document) (key : String) : Bool :=
  decide (2 ≤ doc.length) &&
    (decide (repeatThreshold doc.length ≤ headerPages doc key) ||
     decide (repeatThreshold doc.length ≤ footerPages doc key))

/-- The blocks surviving the header/footer filter (extract.py lines
171-175): every block whose key is a repeating header/footer is dropped,
regardless of the zone the individual block lies in. -/
def keptBlocks (doc : Document) : List TextBlock :=
  (docBlocks doc).filter fun tb => ! isRepeatingKey doc tb.key

/-- `_extract_sync`, from the page-count check onward.  The filesystem
checks (existence, size limit) and the encryption probe are environment
I/O preceding this logic and are not modelled; `max_pages` is the
configured page limit. -/
def _extract_sync (max_pages : Nat) (doc : Document) : Except String (List String) :=
  if doc.length = 0 then .error "PDF contains no pages"
  else if max_pages < doc.length then .error "PDF page count exceeds the limit"
  else if docBlocks doc = [] then
    .error "The PDF does not contain extractable text content"
  else if ((keptBlocks doc).flatMap fun tb => _block_to_paragraphs tb.text) = [] then
    .error "The PDF appears to be image-only or empty"
  else .ok ((keptBlocks doc).flatMap fun tb => _block_to_paragraphs tb.text)

/-! ### Claim theorems for the layout extractor -/

/-- C2: any successful extraction returns exactly the paragraphs of the
blocks surviving the header/footer filter; for a document with at least
2 pages, a key whose header-zone or footer-zone page count reaches
`max(2, ceil(0.6 * page_count))` has every block carrying it dropped,
regardless of zone; for a single-page document no block is filtered. -/
theorem extract_repeating_header_footer
    (doc : Document) (max_pages : Nat) :
    (∀ l, _extract_sync max_pages doc = .ok l →
        l = (keptBlocks doc).flatMap fun tb => _block_to_paragraphs tb.text)
    ∧ (2 ≤ doc.length →
        ∀ key,
          (max 2 ((3 * doc.length + 4) / 5) ≤ headerPages doc key
            ∨ max 2 ((3 * doc.length + 4) / 5) ≤ footerPages doc key) →
          ∀ tb ∈ docBlocks doc, tb.key = key → tb ∉ keptBlocks doc)
    ∧ (doc.length = 1 → keptBlocks doc = docBlocks doc) := by
  refine ⟨?_, ?_, ?_⟩
  · intro l hl
    unfold _extract_sync at hl
    split at hl
    · exact absurd hl (by simp)
    · split at hl
      · exact absurd hl (by simp)
      · split at hl
        · exact absurd hl (by simp)
        · split at hl
          · exact absurd hl (by simp)
          · exact (Except.ok.inj hl).symm
  · intro hpc key hkey tb htb hkeq
    have hfloor : repeatThreshold doc.length ≤ max 2 ((3 * doc.length + 4) / 5) := by
      have : 3 * doc.length / 5 ≤ (3 * doc.length + 4) / 5 :=
        Nat.div_le_div_right (by omega)
      unfold repeatThreshold
      omega
    have hrep : isRepeatingKey doc key = true := by
      unfold isRepeatingKey
      rcases hkey with h | h
      · simp [hpc]
        exact Or.inl (le_trans hfloor h)
      · simp [hpc]
        exact Or.inr (le_trans hfloor h)
    intro hmem
    have := (List.mem_filter.mp hmem).2
    rw [hkeq, hrep] at this
    simp at this
  · intro hpc
    have hall : ∀ key, isRepeatingKey doc key = false := by
      intro key
      unfold isRepeatingKey
      simp [hpc]
    unfold keptBlocks
    refine List.filter_eq_self.mpr ?_
    intro tb _
    simp [hall tb.key]

/-- Witness for C2 on concrete documents: a 2-page document whose
"Chapter 1" header repeats on both pages (the header block is dropped),
and a 1-page document (nothing is filtered). -/
theorem extract_repeating_header_footer_witness :
    (⟨0, "Chapter 1", "Chapter 1", 2, 8⟩ : TextBlock) ∉ keptBlocks
        [⟨100, [⟨2, 8, "Chapter 1", some 0⟩, ⟨40, 60, "Hello world.", some 0⟩]⟩,
         ⟨100, [⟨2, 8, "Chapter 1", some 0⟩, ⟨40, 60, "Good-\nbye now.", some 0⟩]⟩]
    ∧ keptBlocks [⟨100, [⟨2, 8, "Chapter 1", some 0⟩]⟩]
        = docBlocks [⟨100, [⟨2, 8, "Chapter 1", some 0⟩]⟩] :=
  ⟨(extract_repeating_header_footer
      [⟨100, [⟨2, 8, "Chapter 1", some 0⟩, ⟨40, 60, "Hello world.", some 0⟩]⟩,
       ⟨100, [⟨2, 8, "Chapter 1", some 0⟩, ⟨40, 60, "Good-\nbye now.", some 0⟩]⟩] 10).2.1
      (by decide) "Chapter 1" (Or.inl (by decide))
      ⟨0, "Chapter 1", "Chapter 1", 2, 8⟩ (by decide) (by decide),
   (extract_repeating_header_footer [⟨100, [⟨2, 8, "Chapter 1", some 0⟩]⟩] 10).2.2
      (by decide)⟩

/-- Characters cannot be both uppercase and lowercase ASCII letters. -/
theorem char_isUpper_isLower_false (c : Char) (h : c.isUpper = true) :
    c.isLower = false := by
  rcases hl : c.isLower with _ | _
  · rfl
  · exfalso
    simp only [Char.isUpper, Char.isLower, Bool.and_eq_true, decide_eq_true_eq,
      ge_iff_le] at h hl
    have h1 : (97 : UInt32) ≤ c.val := hl.1
    have h2 : c.val ≤ (90 : UInt32) := h.2
    exact absurd (UInt32.le_trans h1 h2) (by decide)

/-- C5: within a block, a nonblank continuation line is folded into the
accumulated paragraph by `_join_lines`; when the paragraph so far ends
in `-` and the continuation starts with a lowercase letter the hyphen is
dropped and the texts concatenate directly (no inserted space), while an
uppercase-starting continuation keeps the hyphen and joins with a single
space. -/
theorem block_dehyphenation
    (current raw : String) (rest : List String)
    (hc : current ≠ "") (hn : _normalize_key raw ≠ "") :
    blockLoop (raw :: rest) current = blockLoop rest (_join_lines current (_normalize_key raw))
    ∧ (endsWithDash current = true → frontIsLower (_normalize_key raw) = true →
        _join_lines current (_normalize_key raw)
          = ⟨current.data.dropLast ++ (_normalize_key raw).data⟩)
    ∧ (endsWithDash current = true → frontIsUpper (_normalize_key raw) = true →
        _join_lines current (_normalize_key raw)
          = current ++ " " ++ _normalize_key raw) := by
  refine ⟨?_, ?_, ?_⟩
  · simp only [blockLoop, hn, if_false, hc, if_true]
    simp [hn, hc]
  · intro hend hlow
    unfold _join_lines
    simp [hend, hlow]
  · intro hend hupp
    have hnotlow : frontIsLower (_normalize_key raw) = false := by
      unfold frontIsUpper at hupp
      unfold frontIsLower
      rcases hdata : (_normalize_key raw).data with _ | ⟨c, cs⟩
      · rfl
      · rw [hdata] at hupp
        exact char_isUpper_isLower_false c hupp
    unfold _join_lines
    simp [hnotlow]

/-- Witness for C5: `"Good-"` followed by `"bye now."` de-hyphenates to
`"Goodbye now."`; `"Good-"` followed by `"Bye now."` keeps the hyphen
and joins with a space. -/
theorem block_dehyphenation_witness :
    blockLoop ["bye now."] "Good-" = blockLoop [] (_join_lines "Good-" (_normalize_key "bye now."))
    ∧ _join_lines "Good-" (_normalize_key "bye now.")
        = ⟨"Good-".data.dropLast ++ (_normalize_key "bye now.").data⟩
    ∧ _join_lines "Good-" (_normalize_key "Bye now.")
        = "Good-" ++ " " ++ _normalize_key "Bye now." :=
  ⟨(block_dehyphenation "Good-" "bye now." [] (by decide) (by decide)).1,
   (block_dehyphenation "Good-" "bye now." [] (by decide) (by decide)).2.1
      (by decide) (by decide),
   (block_dehyphenation "Good-" "Bye now." [] (by decide) (by decide)).2.2
      (by decide) (by decide)⟩

/-! ## Flashcard generation (`backend/app/pipeline/flashcards.py`)

The spaCy tokenizer is an external collaborator: its output is modelled
as a list of `SpacyToken` records carrying the attributes the code
reads.  `wordfreq.zipf_frequency` is modelled as an oracle
`zipf : String → ℚ` (floats as rationals). -/

/-- `MAX_FLASHCARDS` from `flashcards.py`. -/
def MAX_FLASHCARDS : Nat := 30

/-- A spaCy token as seen by `_iter_candidate_tokens`: surface text,
lemma (`token.lemma_`), and the four boolean attributes consulted. -/
structure SpacyToken where
  text : String
  lemma_ : String
  is_space : Bool
  is_punct : Bool
  like_num : Bool
  is_stop : Bool

/-- `_normalise_token`: case-fold for frequency analysis (Python
`str.casefold()`, modelled as ASCII lowercasing). -/
def _normalise_token (text : String) : String :=
  ⟨text.data.map Char.toLower⟩

/-- `_iter_candidate_tokens`: skip whitespace, punctuation, number-like
and stop-word tokens; prefer the stripped lemma over the surface form
unless it is empty or the legacy `-PRON-` marker. -/
def _iter_candidate_tokens (tokens : List SpacyToken) : List String :=
  tokens.filterMap fun t =>
    if t.is_space || t.is_punct || t.like_num then none
    else if t.is_stop then none
    else
      if pyStrip t.lemma_ ≠ "" ∧ pyStrip t.lemma_ ≠ "-PRON-" then
        some (_normalise_token (pyStrip t.lemma_))
      else
        some (_normalise_token t.text)

/-- One step of `collections.Counter`: bump the count of `w`, preserving
first-occurrence ordering of keys. -/
def bumpCount : List (String × Nat) → String → List (String × Nat)
  | [], w => [(w, 1)]
  | (x, n) :: rest, w =>
      if x = w then (x, n + 1) :: rest else (x, n) :: bumpCount rest w

/-- `_count_token_frequencies`: token counts in first-occurrence order
(`Counter` iterates in insertion order). -/
def _count_token_frequencies (tokens : List SpacyToken) : List (String × Nat) :=
  (_iter_candidate_tokens tokens).foldl bumpCount []

/-- A row of `scored_rows`: word, in-document count, and the score
`count * (1.0 + max(0.0, 7.0 - zipf))`. -/
structure ScoredRow where
  word : String
  count : Nat
  score : ℚ
deriving DecidableEq

/-- Score every distinct word (`flashcards.py` lines 71-76). -/
def scoreRows (zipf : String → ℚ) (freqs : List (String × Nat)) : List ScoredRow :=
  freqs.map fun wc => ⟨wc.1, wc.2, (wc.2 : ℚ) * (1 + max 0 (7 - zipf wc.1))⟩

/-- `(score, count)` of `a` is at least that of `b` in the descending
lexicographic order used by `scored_rows.sort(..., reverse=True)`. -/
def rowKeyGe (a b : ScoredRow) : Bool :=
  decide (b.score < a.score) ||
    (decide (a.score = b.score) && decide (b.count ≤ a.count))

/-- Stable descending insertion: `x` goes after every earlier row whose
key is at least its own, matching Python's stable `sort(reverse=True)`. -/
def insertDesc (x : ScoredRow) : List ScoredRow → List ScoredRow
  | [] => [x]
  | y :: ys => if rowKeyGe y x then y :: insertDesc x ys else x :: y :: ys

/-- Stable descending sort by `(score, count)`. -/
def sortRowsDesc (l : List ScoredRow) : List ScoredRow :=
  l.foldl (fun acc x => insertDesc x acc) []

/-- The capped candidate-word list of `generate_flashcards`: the top
`MAX_FLASHCARDS` rows by `(score, count)` descending. -/
def generate_flashcards_words (zipf : String → ℚ) (tokens : List SpacyToken) : List String :=
  ((sortRowsDesc (scoreRows zipf (_count_token_frequencies tokens))).take MAX_FLASHCARDS).map
    (·.word)

theorem mem_insertDesc (x y : ScoredRow) :
    ∀ l, y ∈ insertDesc x l → y = x ∨ y ∈ l := by
  intro l
  induction l with
  | nil => intro h; simpa [insertDesc] using h
  | cons z zs ih =>
      intro h
      unfold insertDesc at h
      by_cases hk : rowKeyGe z x
      · simp [hk] at h
        rcases h with h | h
        · exact Or.inr (by simp [h])
        · rcases ih h with h' | h'
          · exact Or.inl h'
          · exact Or.inr (by simp [h'])
      · simp [hk] at h
        rcases h with h | h | h
        · exact Or.inl h
        · exact Or.inr (by simp [h])
        · exact Or.inr (by simp [h])

theorem mem_sortRowsDesc_aux (y : ScoredRow) :
    ∀ (l : List ScoredRow) (acc : List ScoredRow),
      y ∈ l.foldl (fun acc x => insertDesc x acc) acc → y ∈ acc ∨ y ∈ l := by
  intro l
  induction l with
  | nil => intro acc h; exact Or.inl h
  | cons z zs ih =>
      intro acc h
      rcases ih (insertDesc z acc) h with h' | h'
      · rcases mem_insertDesc z y acc h' with h'' | h''
        · exact Or.inr (by simp [h''])
        · exact Or.inl h''
      · exact Or.inr (by simp [h'])

theorem mem_bumpCount_key (w : String) :
    ∀ (acc : List (String × Nat)) (key : String),
      key ∈ (bumpCount acc w).map Prod.fst → key ∈ acc.map Prod.fst ∨ key = w := by
  intro acc
  induction acc with
  | nil => intro key h; simpa [bumpCount] using h
  | cons p rest ih =>
      intro key h
      unfold bumpCount at h
      by_cases hx : p.1 = w
      · rw [if_pos (by simpa using hx)] at h
        simp at h
        rcases h with h | h
        · exact Or.inl (by simp [h])
        · exact Or.inl (by simp [h])
      · rw [if_neg (by simpa using hx)] at h
        simp at h
        rcases h with h | h
        · exact Or.inl (by simp [h])
        · rcases ih key (by simpa using h) with h' | h'
          · exact Or.inl (by simp at h' ⊢; exact Or.inr h')
          · exact Or.inr h'

theorem mem_count_frequencies_key (ws : List String) :
    ∀ (acc : List (String × Nat)) (key : String),
      key ∈ (ws.foldl bumpCount acc).map Prod.fst → key ∈ acc.map Prod.fst ∨ key ∈ ws := by
  induction ws with
  | nil => intro acc key h; exact Or.inl h
  | cons w rest ih =>
      intro acc key h
      rcases ih (bumpCount acc w) key h with h' | h'
      · rcases mem_bumpCount_key w acc key h' with h'' | h''
        · exact Or.inl h''
        · exact Or.inr (by simp [h''])
      · exact Or.inr (by simp [h'])

/-- C7: the flashcard builder outputs at most 30 words; every output
word originates from a token that is not whitespace, not punctuation,
not number-like and not a stop word (normalized from its stripped lemma
or its surface text); and the output is exactly the top 30 rows of the
stable `(score, count)`-descending sort of the candidate scores
`count * (1 + max(0, 7 - zipf))`. -/
theorem flashcards_cap_filter_and_ranking
    (zipf : String → ℚ) (tokens : List SpacyToken) :
    (generate_flashcards_words zipf tokens).length ≤ 30
    ∧ (∀ w ∈ generate_flashcards_words zipf tokens,
        ∃ t ∈ tokens,
          t.is_space = false ∧ t.is_punct = false ∧ t.like_num = false ∧ t.is_stop = false
          ∧ (w = _normalise_token (pyStrip t.lemma_) ∨ w = _normalise_token t.text))
    ∧ generate_flashcards_words zipf tokens
        = ((sortRowsDesc (scoreRows zipf (_count_token_frequencies tokens))).take
            MAX_FLASHCARDS).map (·.word) := by
  refine ⟨?_, ?_, rfl⟩
  · unfold generate_flashcards_words
    rw [List.length_map, List.length_take]
    exact le_trans (min_le_left _ _) (le_refl 30)
  · intro w hw
    unfold generate_flashcards_words at hw
    rcases List.mem_map.mp hw with ⟨row, hrow, hword⟩
    have hrow' : row ∈ sortRowsDesc (scoreRows zipf (_count_token_frequencies tokens)) :=
      List.take_subset _ _ hrow
    have hrow'' : row ∈ scoreRows zipf (_count_token_frequencies tokens) := by
      rcases mem_sortRowsDesc_aux row _ [] hrow' with h | h
      · exact absurd h (List.not_mem_nil row)
      · exact h
    rcases List.mem_map.mp hrow'' with ⟨wc, hwc, hsc⟩
    have hkey : wc.1 ∈ (_count_token_frequencies tokens).map Prod.fst :=
      List.mem_map.mpr ⟨wc, hwc, rfl⟩
    have hword' : w = wc.1 := by rw [← hword, ← hsc]
    have hmemws : wc.1 ∈ _iter_candidate_tokens tokens := by
      unfold _count_token_frequencies at hkey
      rcases mem_count_frequencies_key (_iter_candidate_tokens tokens) [] wc.1 hkey with h | h
      · simp at h
      · exact h
    rcases List.mem_filterMap.mp hmemws with ⟨t, ht, hft⟩
    refine ⟨t, ht, ?_⟩
    by_cases h1 : t.is_space || t.is_punct || t.like_num
    · rw [if_pos h1] at hft; exact absurd hft (by simp)
    · rw [if_neg h1] at hft
      by_cases h2 : t.is_stop
      · rw [if_pos h2] at hft; exact absurd hft (by simp)
      · rw [if_neg h2] at hft
        simp only [Bool.or_eq_true, not_or] at h1
        refine ⟨by simpa using h1.1.1, by simpa using h1.1.2, by simpa using h1.2,
          by simpa using h2, ?_⟩
        by_cases h3 : pyStrip t.lemma_ ≠ "" ∧ pyStrip t.lemma_ ≠ "-PRON-"
        · rw [if_pos h3] at hft
          exact Or.inl (hword' ▸ (Option.some.inj hft).symm)
        · rw [if_neg h3] at hft
          exact Or.inr (hword' ▸ (Option.some.inj hft).symm)

/-- Witness for C7: one non-stop, non-punctuation token `"Hello"` with
lemma `"hello"` produces the single flashcard word `"hello"`, traceable
to that token. -/
theorem flashcards_cap_filter_and_ranking_witness :
    ∃ t ∈ [(⟨"Hello", "hello", false, false, false, false⟩ : SpacyToken)],
      t.is_space = false ∧ t.is_punct = false ∧ t.like_num = false ∧ t.is_stop = false
      ∧ ("hello" = _normalise_token (pyStrip t.lemma_) ∨ "hello" = _normalise_token t.text) :=
  (flashcards_cap_filter_and_ranking (fun _ => (3 : ℚ))
    [⟨"Hello", "hello", false, false, false, false⟩]).2.1 "hello" (by decide)

/-! ## Job state updates (`backend/app/pipeline/__init__.py`,
`_update_job_state`)

The sqlite table and the manifest directory are modelled as association
lists keyed by job id.  Passing `none` for an optional argument models
Python's `None`/`_SENTINEL` default (field untouched); `some none` for
the tri-state fields models explicitly storing `None`. -/

/-- The mutable job fields `_update_job_state` can touch. -/
structure JobRecord where
  status : String
  stage : String
  pct : ℚ
  error : Option String
  epub_path : Option String
  cards_path : Option String
deriving DecidableEq

/-- The keyword arguments of `_update_job_state` (`none` = argument not
supplied / `_SENTINEL`). -/
structure UpdateArgs where
  status : Option String := none
  stage : Option String := none
  pct : Option ℚ := none
  error : Option (Option String) := none
  epub_path : Option (Option String) := none
  cards_path : Option (Option String) := none
deriving DecidableEq

/-- Apply the supplied fields to a job record (the body of both the
sqlite and the manifests branch). -/
def applyUpdate (j : JobRecord) (u : UpdateArgs) : JobRecord :=
  { status := u.status.getD j.status
    stage := u.stage.getD j.stage
    pct := u.pct.getD j.pct
    error := u.error.getD j.error
    epub_path := u.epub_path.getD j.epub_path
    cards_path := u.cards_path.getD j.cards_path }

/-- A manifest payload: the job fields plus any extra keys merged by the
`extra` argument (manifests mode only). -/
structure ManifestData where
  record : JobRecord
  extra : List (String × String)
deriving DecidableEq

/-- Look up the first binding of a key in an association list. -/
def lookupKey {α : Type} : List (String × α) → String → Option α
  | [], _ => none
  | (k, v) :: rest, key => if k = key then some v else lookupKey rest key

/-- Replace the value stored at the first binding of a key. -/
def setKey {α : Type} : List (String × α) → String → α → List (String × α)
  | [], _, _ => []
  | (k, v) :: rest, key, val =>
      if k = key then (k, val) :: rest else (k, v) :: setKey rest key val

/-- Both persistence backends seen by `_update_job_state`. -/
structure JobStateStore where
  rows : List (String × JobRecord)
  manifests : List (String × ManifestData)
deriving DecidableEq

/-- `_update_job_state`: in sqlite mode, fetch the row and return doing
nothing when it is absent; in manifests mode, return when the manifest
file does not exist, else rewrite it with the supplied fields and merged
extras; any other mode raises `RuntimeError`. -/
def _update_job_state (db_mode : String) (store : JobStateStore) (job_id : String)
    (u : UpdateArgs) (extra : Option (List (String × String))) :
    Except String JobStateStore :=
  if db_mode = "sqlite" then
    match lookupKey store.rows job_id with
    | none => .ok store
    | some j => .ok { store with rows := setKey store.rows job_id (applyUpdate j u) }
  else if db_mode = "manifests" then
    match lookupKey store.manifests job_id with
    | none => .ok store
    | some m =>
        .ok { store with
                manifests := setKey store.manifests job_id
                  ⟨applyUpdate m.record u, m.extra ++ (extra.getD [])⟩ }
  else .error ("Unsupported db mode " ++ db_mode)

/-- C10: when the job id has no record — no row in sqlite mode, no
manifest file in manifests mode — `_update_job_state` returns without
raising and leaves the state store unchanged, creating nothing. -/
theorem update_job_state_missing_is_noop
    (store : JobStateStore) (job_id : String) (u : UpdateArgs)
    (extra : Option (List (String × String))) :
    (lookupKey store.rows job_id = none →
      _update_job_state "sqlite" store job_id u extra = .ok store)
    ∧ (lookupKey store.manifests job_id = none →
      _update_job_state "manifests" store job_id u extra = .ok store) := by
  constructor
  · intro h
    unfold _update_job_state
    rw [if_pos rfl, h]
  · intro h
    unfold _update_job_state
    rw [if_neg (by decide), if_pos rfl, h]

/-- Witness for C10: the empty store has no record for `"job123"` and
both backends leave it untouched. -/
theorem update_job_state_missing_is_noop_witness :
    _update_job_state "sqlite" ⟨[], []⟩ "job123" {} none = .ok ⟨[], []⟩
    ∧ _update_job_state "manifests" ⟨[], []⟩ "job123" {} none = .ok ⟨[], []⟩ :=
  ⟨(update_job_state_missing_is_noop ⟨[], []⟩ "job123" {} none).1 rfl,
   (update_job_state_missing_is_noop ⟨[], []⟩ "job123" {} none).2 rfl⟩

/-! ## Translate stage (`backend/app/pipeline/translate.py`)

`translate_paragraphs` is modelled as a pure function that also records
its observable effects: whether the token budgeter ran, which batches
were sent to the translation provider, which fractional progress values
were reported (the orchestrator passes a progress callback), and what
was persisted.  Storage writes are modelled as infallible; the provider
is a function from a batch to `Except` (a raised provider error). -/

/-- A translation provider's `translate_batch`, as the pipeline calls
it: one batch in, either translations or a raised error. -/
abbrev Provider := List String → Except String (List String)

/-- The artifact location `_persist_translations` returns (modelled
abstractly by the artifact filename). -/
def translationsLocation : String := "translated_paragraphs.json"

/-- Observable behaviour of one `translate_paragraphs` call. -/
structure TranslateEffects where
  budgeter_called : Bool
  provider_calls : List (List String)
  progress : List ℚ
  persisted : Option (List String)
  result : Except String (List String × String)

/-- The batch loop of `translate_paragraphs` (lines 122-130): returns
the batches actually sent, the progress fractions reported after each
completed batch (`index / total`), and the accumulated translations or
the first provider error. -/
def runBatches (provider : Provider) (total : ℚ) :
    Nat → List (List String) → List (List String) × List ℚ × Except String (List String)
  | _, [] => ([], [], .ok [])
  | idx, b :: rest =>
      match provider b with
      | .error e => ([b], [], .error e)
      | .ok tb =>
          match runBatches provider total (idx + 1) rest with
          | (calls, progs, res) =>
              (b :: calls, ((idx + 1 : ℚ) / total) :: progs,
               match res with
               | .error e => .error e
               | .ok ts => .ok (tb ++ ts))

/-- `translate_paragraphs` with the orchestrator's progress callback:
an empty paragraph list persists an empty artifact and returns before
the provider, the budgeter, or any progress report; otherwise the texts
are batched with the default budget and translated batch by batch. -/
def translate_paragraphs (provider : Provider) (paragraphs : List String) :
    TranslateEffects :=
  if paragraphs.isEmpty then
    { budgeter_called := false, provider_calls := [], progress := [],
      persisted := some [], result := .ok ([], translationsLocation) }
  else
    match chunk_by_tokens paragraphs DEFAULT_MAX_TOKENS RESERVED_COMPLETION_TOKENS with
    | .error e =>
        { budgeter_called := true, provider_calls := [], progress := [],
          persisted := none, result := .error e }
    | .ok batches =>
        match runBatches provider ((max 1 batches.length : Nat) : ℚ) 0 batches with
        | (calls, progs, res) =>
            { budgeter_called := true,
              provider_calls := calls,
              progress := 0 :: progs,
              persisted := match res with | .ok ts => some ts | .error _ => none,
              result := match res with
                | .error e => .error e
                | .ok ts => .ok (ts, translationsLocation) }

/-- C9: called with an empty paragraph list, `translate_paragraphs`
returns an empty translation list with the persisted (empty) artifact
location, sends nothing to the translation gateway, never invokes the
token budgeter, and reports no progress. -/
theorem translate_paragraphs_empty (provider : Provider) :
    (translate_paragraphs provider []).result = .ok ([], translationsLocation)
    ∧ (translate_paragraphs provider []).persisted = some []
    ∧ (translate_paragraphs provider []).provider_calls = []
    ∧ (translate_paragraphs provider []).budgeter_called = false
    ∧ (translate_paragraphs provider []).progress = [] :=
  ⟨rfl, rfl, rfl, rfl, rfl⟩

/-! ## Remote provider length check
(`backend/app/providers/openai_provider.py`)

`OpenAIProvider.translate_batch` re-chunks its input with the default
budget and, for each sub-batch, compares the number of returned
translations against the number requested, raising a mismatch error
naming both counts.  The external service together with
`_extract_translations` is modelled as `respond : List String → List
String` (a successfully parsed response per sub-batch prompt). -/

/-- The mismatch message of `openai_provider.py` lines 102-105. -/
def mismatchMsg (expected received : Nat) : String :=
  "OpenAI returned a mismatched number of translations (expected "
    ++ toString expected ++ ", received " ++ toString received ++ ")"

/-- The per-batch loop of `OpenAIProvider.translate_batch` (lines
77-106): request each batch in order, fail on the first length
mismatch, else accumulate in order. -/
def openaiLoop (respond : List String → List String) :
    List (List String) → Except String (List String)
  | [] => .ok []
  | b :: rest =>
      if (respond b).length ≠ b.length then
        .error (mismatchMsg b.length (respond b).length)
      else
        match openaiLoop respond rest with
        | .error e => .error e
        | .ok ts => .ok (respond b ++ ts)

/-- `OpenAIProvider.translate_batch`: empty input short-circuits,
otherwise the texts are chunked with the default budget and each
sub-batch's response length is verified. -/
def openai_translate_batch (respond : List String → List String)
    (texts : List String) : Except String (List String) :=
  if texts.isEmpty then .ok []
  else
    match chunk_by_tokens texts DEFAULT_MAX_TOKENS RESERVED_COMPLETION_TOKENS with
    | .error e => .error e
    | .ok batches => openaiLoop respond batches

/-! ## Pipeline orchestrator (`backend/app/pipeline/__init__.py`,
`run_pipeline`)

`run_pipeline` is modelled by the ordered list of `_update_job_state`
calls it makes (its trace).  Fallible collaborators are environment
parameters; artifact writes are modelled as infallible.  The source's
`except` handler maps any raised exception to a terminal update with
`status="error"`, `stage="parse_pdf"` and the exception text. -/

/-- One `_update_job_state` call as issued by `run_pipeline` (the
`extra` manifest payload is not modelled; `error = some none` is an
explicit `error=None` argument). -/
structure JobUpdate where
  status : Option String := none
  stage : Option String := none
  pct : Option ℚ := none
  error : Option (Option String) := none
  epub_path : Option (Option String) := none
  cards_path : Option (Option String) := none
deriving DecidableEq

/-- An intermediate `status="processing"` update. -/
def processingUpdate (stage : String) (pct : ℚ) : JobUpdate :=
  { status := some "processing", stage := some stage, pct := some pct }

/-- The opening update (lines 203-209): enter `parse_pdf` at pct 5 and
clear any prior error. -/
def startUpdate : JobUpdate :=
  { status := some "processing", stage := some "parse_pdf", pct := some 5,
    error := some none }

/-- The terminal update of the `except` handler (`__init__.py` lines
388-393): `status="error"`, hard-coded `stage="parse_pdf"`, and the
exception's message; no pct. -/
def errorUpdate (msg : String) : JobUpdate :=
  { status := some "error", stage := some "parse_pdf", error := some (some msg) }

/-- The final `status="done"` update (lines 376-385). -/
def doneUpdate : JobUpdate :=
  { status := some "done", stage := some "finalize", pct := some 100,
    error := some none, epub_path := some (some "book.epub"),
    cards_path := some (some "flashcards.csv") }

/-- The fallible collaborators of one `run_pipeline` run: source
resolution, extraction, the translation provider, EPUB building, and
flashcard generation. -/
structure PipelineEnv where
  resolve_result : Except String Unit
  extract_result : Except String (List String)
  provider : Provider
  build_result : Except String Unit
  flashcards_result : Except String Unit

/-- The ordered `_update_job_state` trace of `run_pipeline`: stage
checkpoints at pct 5, 20, 30, 40, per-batch translate progress mapped
by `40 + progress * 35`, then 75, 85, 95, 96, 98 and the final done
update at 100; any failure appends the handler's error update and
stops. -/
def run_pipeline_trace (env : PipelineEnv) : List JobUpdate :=
  startUpdate ::
  match env.resolve_result with
  | .error e => [errorUpdate e]
  | .ok _ =>
    match env.extract_result with
    | .error e => [errorUpdate e]
    | .ok paragraphs =>
      processingUpdate "parse_pdf" 20 ::
      processingUpdate "parse_pdf" 30 ::
      processingUpdate "translate" 40 ::
      (((translate_paragraphs env.provider paragraphs).progress.map
          fun p => processingUpdate "translate" (40 + p * 35)) ++
       match (translate_paragraphs env.provider paragraphs).result with
       | .error e => [errorUpdate e]
       | .ok _ =>
         processingUpdate "translate" 75 ::
         processingUpdate "build_epub" 85 ::
         match env.build_result with
         | .error e => [errorUpdate e]
         | .ok _ =>
           processingUpdate "build_epub" 95 ::
           processingUpdate "flashcards" 96 ::
           match env.flashcards_result with
           | .error e => [errorUpdate e]
           | .ok _ =>
             [processingUpdate "flashcards" 98, doneUpdate])

/-! ### Pipeline lemmas -/

theorem pipeline_translate_failure_shape
    (env : PipelineEnv) (paragraphs : List String) (e : String)
    (hres : env.resolve_result = .ok ())
    (hext : env.extract_result = .ok paragraphs)
    (htr : (translate_paragraphs env.provider paragraphs).result = .error e) :
    (∃ l', run_pipeline_trace env = l' ++ [errorUpdate e])
    ∧ ∀ u ∈ run_pipeline_trace env, u.status ≠ some "done" := by
  unfold run_pipeline_trace
  rw [hres, hext]
  dsimp only
  rw [htr]
  constructor
  · exact ⟨startUpdate :: processingUpdate "parse_pdf" 20 ::
      processingUpdate "parse_pdf" 30 :: processingUpdate "translate" 40 ::
      ((translate_paragraphs env.provider paragraphs).progress.map
        fun p => processingUpdate "translate" (40 + p * 35)), by simp⟩
  · intro u hu
    simp only [List.mem_cons, List.mem_append, List.mem_map, List.mem_singleton] at hu
    rcases hu with rfl | rfl | rfl | rfl | ⟨p, _, rfl⟩ | rfl | h
    · simp [startUpdate]
    · simp [processingUpdate]
    · simp [processingUpdate]
    · simp [processingUpdate]
    · simp [processingUpdate]
    · simp [errorUpdate]
    · exact absurd h (List.not_mem_nil u)

theorem openaiLoop_first_mismatch (respond : List String → List String)
    (b : List String) (bs₂ : List (List String))
    (hmm : (respond b).length ≠ b.length) :
    ∀ bs₁ : List (List String), (∀ b' ∈ bs₁, (respond b').length = b'.length) →
      openaiLoop respond (bs₁ ++ b :: bs₂)
        = .error (mismatchMsg b.length (respond b).length) := by
  intro bs₁
  induction bs₁ with
  | nil =>
      intro _
      simp only [List.nil_append, openaiLoop]
      rw [if_pos hmm]
  | cons b' rest ih =>
      intro hok
      have hb' : (respond b').length = b'.length := hok b' (by simp)
      simp only [List.cons_append, openaiLoop]
      rw [if_neg (by simp [hb'])]
      simp only [List.append_eq]
      rw [ih fun x hx => hok x (by simp [hx])]

theorem runBatches_progress_props (provider : Provider) (total : ℚ) (htot : 0 < total) :
    ∀ (batches : List (List String)) (idx : Nat),
      ((idx : ℚ) + batches.length ≤ total) →
      List.Chain' (· ≤ ·) (runBatches provider total idx batches).2.1
      ∧ ∀ p ∈ (runBatches provider total idx batches).2.1,
          ((idx : ℚ) + 1) / total ≤ p ∧ p ≤ 1 := by
  intro batches
  induction batches with
  | nil =>
      intro idx _
      constructor
      · simp [runBatches]
      · intro p hp
        simp [runBatches] at hp
  | cons b rest ih =>
      intro idx hle
      rcases hpb : provider b with e | tb
      · constructor
        · simp [runBatches, hpb]
        · intro p hp
          simp [runBatches, hpb] at hp
      · rcases hrec : runBatches provider total (idx + 1) rest with ⟨calls, progs, res⟩
        have hle' : ((idx + 1 : Nat) : ℚ) + rest.length ≤ total := by
          push_cast
          push_cast [List.length_cons] at hle
          linarith
        have ihspec := ih (idx + 1) hle'
        rw [hrec] at ihspec
        have hidx1 : (idx : ℚ) + 1 ≤ total := by
          push_cast [List.length_cons] at hle
          have : (0:ℚ) ≤ rest.length := by positivity
          linarith
        have hxle1 : ((idx : ℚ) + 1) / total ≤ 1 := by
          rw [div_le_one htot]
          exact hidx1
        have hshape : (runBatches provider total idx (b :: rest)).2.1
            = ((idx : ℚ) + 1) / total :: progs := by
          simp [runBatches, hpb, hrec]
        rw [hshape]
        constructor
        · rw [List.chain'_cons']
          constructor
          · intro y hy
            have hy' : y ∈ progs := List.mem_of_mem_head? hy
            have := (ihspec.2 y hy').1
            refine le_trans ?_ this
            rw [div_le_div_iff htot htot]
            push_cast
            nlinarith [htot]
          · exact ihspec.1
        · intro p hp
          rcases List.mem_cons.mp hp with rfl | hp'
          · exact ⟨le_refl _, hxle1⟩
          · have := ihspec.2 p hp'
            refine ⟨le_trans ?_ this.1, this.2⟩
            rw [div_le_div_iff htot htot]
            push_cast
            nlinarith [htot]

theorem translate_progress_props (provider : Provider) (paragraphs : List String) :
    List.Chain' (· ≤ ·) (translate_paragraphs provider paragraphs).progress
    ∧ ∀ p ∈ (translate_paragraphs provider paragraphs).progress, 0 ≤ p ∧ p ≤ 1 := by
  unfold translate_paragraphs
  by_cases hemp : paragraphs.isEmpty
  · simp [hemp]
  · rw [if_neg hemp]
    rcases hchunk : chunk_by_tokens paragraphs DEFAULT_MAX_TOKENS RESERVED_COMPLETION_TOKENS
      with e | batches
    · constructor
      · simp
      · intro p hp
        simp at hp
    · have htot : (0:ℚ) < ((max 1 batches.length : Nat) : ℚ) := by
        have : 1 ≤ max 1 batches.length := Nat.le_max_left 1 batches.length
        exact_mod_cast lt_of_lt_of_le Nat.zero_lt_one this
      have hle : ((0 : Nat) : ℚ) + batches.length ≤ ((max 1 batches.length : Nat) : ℚ) := by
        have : batches.length ≤ max 1 batches.length := Nat.le_max_right 1 batches.length
        push_cast
        exact_mod_cast by simpa using this
      have hprops := runBatches_progress_props provider ((max 1 batches.length : Nat) : ℚ)
        htot batches 0 hle
      rcases hrec : runBatches provider ((max 1 batches.length : Nat) : ℚ) 0 batches
        with ⟨calls, progs, res⟩
      rw [hrec] at hprops
      have hshape : (match runBatches provider ((max 1 batches.length : Nat) : ℚ) 0 batches with
          | (calls, progs, res) =>
              ({ budgeter_called := true,
                 provider_calls := calls,
                 progress := 0 :: progs,
                 persisted := match res with | .ok ts => some ts | .error _ => none,
                 result := match res with
                   | .error e => .error e
                   | .ok ts => .ok (ts, translationsLocation) } : TranslateEffects)).progress
          = 0 :: progs := by
        rw [hrec]
      rw [hshape]
      constructor
      · rw [List.chain'_cons']
        constructor
        · intro y hy
          have hy' : y ∈ progs := List.mem_of_mem_head? hy
          have hlow := (hprops.2 y hy').1
          refine le_trans ?_ hlow
          positivity
        · exact hprops.1
      · intro p hp
        rcases List.mem_cons.mp hp with rfl | hp'
        · norm_num
        · have := hprops.2 p hp'
          refine ⟨le_trans ?_ this.1, this.2⟩
          positivity

/-! ### Claim theorems for the provider and orchestrator -/

/-- C4: whenever the translation service returns a batch of the wrong
length (all earlier batches being well-formed), the remote provider's
`translate_batch` fails with the mismatch message naming the expected
and received counts; and whenever the translate stage of a pipeline run
fails, the trace ends with the handler's `status="error"` update and
contains no `status="done"` update (so no artifact references are
recorded). -/
theorem provider_mismatch_error_and_no_done :
    (∀ (respond : List String → List String) (texts : List String)
       (bs₁ : List (List String)) (b : List String) (bs₂ : List (List String)),
       chunk_by_tokens texts DEFAULT_MAX_TOKENS RESERVED_COMPLETION_TOKENS
           = .ok (bs₁ ++ b :: bs₂) →
       (∀ b' ∈ bs₁, (respond b').length = b'.length) →
       (respond b).length ≠ b.length →
       openai_translate_batch respond texts
         = .error (mismatchMsg b.length (respond b).length))
    ∧ (∀ (env : PipelineEnv) (paragraphs : List String) (e : String),
       env.resolve_result = .ok () →
       env.extract_result = .ok paragraphs →
       (translate_paragraphs env.provider paragraphs).result = .error e →
       (∃ l', run_pipeline_trace env = l' ++ [errorUpdate e])
       ∧ ∀ u ∈ run_pipeline_trace env, u.status ≠ some "done") := by
  constructor
  · intro respond texts bs₁ b bs₂ hchunk hok hmm2
    by_cases hemp : texts.isEmpty
    · have htexts : texts = [] := List.isEmpty_iff.mp hemp
      subst htexts
      have hnil : chunk_by_tokens [] DEFAULT_MAX_TOKENS RESERVED_COMPLETION_TOKENS
          = .ok [] := rfl
      rw [hnil] at hchunk
      have := Except.ok.inj hchunk
      exact absurd this.symm (by simp)
    · unfold openai_translate_batch
      rw [if_neg (by simp [hemp]), hchunk]
      exact openaiLoop_first_mismatch respond b bs₂ hmm2 bs₁ hok
  · intro env paragraphs e h1 h2 h3
    exact pipeline_translate_failure_shape env paragraphs e h1 h2 h3

/-- Witness for C4: a service dropping one item from a one-batch request
produces the mismatch error naming (expected 1, received 0); a pipeline
whose translate stage fails ends in the error update with no done
update. -/
theorem provider_mismatch_error_and_no_done_witness :
    openai_translate_batch (fun l => l.drop 1) ["hi"]
        = .error (mismatchMsg 1 0)
    ∧ ((∃ l', run_pipeline_trace
            ⟨.ok (), .ok ["hi"], fun _ => .error "boom", .ok (), .ok ()⟩
          = l' ++ [errorUpdate "boom"])
       ∧ ∀ u ∈ run_pipeline_trace
            ⟨.ok (), .ok ["hi"], fun _ => .error "boom", .ok (), .ok ()⟩,
          u.status ≠ some "done") := by
  constructor
  · have := provider_mismatch_error_and_no_done.1 (fun l => l.drop 1) ["hi"]
      [] ["hi"] [] rfl (by simp) (by decide)
    simpa using this
  · exact provider_mismatch_error_and_no_done.2
      ⟨.ok (), .ok ["hi"], fun _ => .error "boom", .ok (), .ok ()⟩ ["hi"] "boom" rfl rfl rfl

/-- A pipeline environment whose translation provider raises during the
translate stage (after the `stage="translate"`, pct 40 checkpoint was
persisted). -/
def envTranslateFail : PipelineEnv :=
  { resolve_result := .ok (), extract_result := .ok ["hola"],
    provider := fun _ => .error "translation provider failed",
    build_result := .ok (), flashcards_result := .ok () }

/-- C1 (code bug): when the provider raises during the translate stage,
the terminal update of `run_pipeline` has `status="error"` with the
exception's message, but its persisted stage is the hard-coded
`"parse_pdf"` of the handler (`__init__.py` line 391) — not the
`"translate"` stage that was executing, which the trace had reached. -/
theorem run_pipeline_error_update_stage_hardcoded :
    (run_pipeline_trace envTranslateFail).getLast?
        = some (errorUpdate "translation provider failed")
    ∧ processingUpdate "translate" 40 ∈ run_pipeline_trace envTranslateFail
    ∧ (errorUpdate "translation provider failed").status = some "error"
    ∧ (errorUpdate "translation provider failed").stage = some "parse_pdf"
    ∧ (errorUpdate "translation provider failed").stage ≠ some "translate" := by
  refine ⟨rfl, ?_, rfl, rfl, by decide⟩
  show processingUpdate "translate" 40 ∈ run_pipeline_trace envTranslateFail
  decide

/-- The persisted-progress shape common to every pipeline run that gets
past extraction: checkpoints 5, 20, 30, 40, the translate progress
mapped by `40 + p * 35`, then some monotone tail starting at 75 and
bounded by 100. -/
theorem chain_pcts_shape (ps : List ℚ) (hch : List.Chain' (· ≤ ·) ps)
    (hb : ∀ p ∈ ps, 0 ≤ p ∧ p ≤ 1)
    (tail : List ℚ) (htail : List.Chain' (· ≤ ·) tail)
    (hhead : ∀ y ∈ tail.head?, (75:ℚ) ≤ y)
    (htb : ∀ q ∈ tail, 0 ≤ q ∧ q ≤ 100) :
    List.Chain' (· ≤ ·) ((5:ℚ) :: 20 :: 30 :: 40 :: ((ps.map fun p => 40 + p * 35) ++ tail))
    ∧ ∀ q ∈ ((5:ℚ) :: 20 :: 30 :: 40 :: ((ps.map fun p => 40 + p * 35) ++ tail)),
        0 ≤ q ∧ q ≤ 100 := by
  have hmap_mem : ∀ q ∈ ps.map (fun p => 40 + p * 35), (40:ℚ) ≤ q ∧ q ≤ 75 := by
    intro q hq
    rcases List.mem_map.mp hq with ⟨p, hp, rfl⟩
    have := hb p hp
    constructor <;> nlinarith [this.1, this.2]
  constructor
  · rw [List.chain'_cons, List.chain'_cons, List.chain'_cons]
    refine ⟨by norm_num, by norm_num, by norm_num, ?_⟩
    rw [List.chain'_cons']
    constructor
    · intro y hy
      rcases hM : ps.map (fun p => 40 + p * 35) with _ | ⟨m, ms⟩
      · rw [hM] at hy
        simp only [List.nil_append] at hy
        linarith [hhead y hy]
      · rw [hM] at hy
        simp only [List.cons_append, List.head?_cons, Option.mem_def,
          Option.some.injEq] at hy
        have hm : m ∈ ps.map (fun p => 40 + p * 35) := by
          rw [hM]; exact List.mem_cons_self m ms
        subst hy
        exact (hmap_mem _ hm).1
    · rw [List.chain'_append]
      refine ⟨?_, htail, ?_⟩
      · rw [List.chain'_map]
        exact hch.imp fun a b hab => by nlinarith [hab]
      · intro x hx y hy
        have hx' : x ∈ ps.map (fun p => 40 + p * 35) := List.mem_of_mem_getLast? hx
        linarith [(hmap_mem x hx').2, hhead y hy]
  · intro q hq
    simp only [List.mem_cons, List.mem_append] at hq
    rcases hq with rfl | rfl | rfl | rfl | hq | hq
    · norm_num
    · norm_num
    · norm_num
    · norm_num
    · have := hmap_mem q hq
      constructor <;> linarith [this.1, this.2]
    · exact htb q hq

theorem filterMap_pct_progress (ps : List ℚ) :
    List.filterMap (·.pct) (ps.map fun p => processingUpdate "translate" (40 + p * 35))
      = ps.map fun p => 40 + p * 35 := by
  induction ps with
  | nil => rfl
  | cons p rest ih =>
      rw [List.map_cons, List.filterMap_cons]
      dsimp only [processingUpdate] at ih ⊢
      rw [ih, List.map_cons]

/-- C6: within one pipeline run, the persisted progress percentages
(the pct fields of the job-state updates, in order) are monotonically
non-decreasing, and every persisted percentage lies in [0, 100]; this
holds on every path, including runs that fail at any stage (the error
update persists no pct). -/
theorem pipeline_progress_monotone_and_bounded (env : PipelineEnv) :
    List.Chain' (· ≤ ·) ((run_pipeline_trace env).filterMap (·.pct))
    ∧ ∀ q ∈ (run_pipeline_trace env).filterMap (·.pct), 0 ≤ q ∧ q ≤ 100 := by
  unfold run_pipeline_trace
  rcases hres : env.resolve_result with e | u
  · dsimp only
    rw [show List.filterMap (·.pct) (startUpdate :: [errorUpdate e]) = [(5:ℚ)] from rfl]
    constructor
    · simp
    · intro q hq
      simp at hq
      subst hq
      norm_num
  · dsimp only
    rcases hext : env.extract_result with e | paragraphs
    · dsimp only
      rw [show List.filterMap (·.pct) (startUpdate :: [errorUpdate e]) = [(5:ℚ)] from rfl]
      constructor
      · simp
      · intro q hq
        simp at hq
        subst hq
        norm_num
    · dsimp only
      obtain ⟨hch, hb⟩ := translate_progress_props env.provider paragraphs
      have hfm : ∀ tailUpdates : List JobUpdate,
          (startUpdate ::
            processingUpdate "parse_pdf" 20 ::
            processingUpdate "parse_pdf" 30 ::
            processingUpdate "translate" 40 ::
            (((translate_paragraphs env.provider paragraphs).progress.map
               fun p => processingUpdate "translate" (40 + p * 35)) ++ tailUpdates)).filterMap
              (·.pct)
          = (5:ℚ) :: 20 :: 30 :: 40 ::
            (((translate_paragraphs env.provider paragraphs).progress.map
               fun p => 40 + p * 35) ++ tailUpdates.filterMap (·.pct)) := by
        intro tailUpdates
        rw [List.filterMap_cons, List.filterMap_cons, List.filterMap_cons,
          List.filterMap_cons, List.filterMap_append, filterMap_pct_progress]
        rfl
      rcases htr : (translate_paragraphs env.provider paragraphs).result with e | ts
      · dsimp only
        rw [hfm [errorUpdate e]]
        rw [show List.filterMap (·.pct) [errorUpdate e] = ([] : List ℚ) from rfl]
        exact chain_pcts_shape _ hch hb []
          (by simp)
          (by intro y hy; simp at hy)
          (by intro q hq; simp at hq)
      · dsimp only
        rcases hbld : env.build_result with e | u2
        · dsimp only
          rw [hfm (processingUpdate "translate" 75 :: processingUpdate "build_epub" 85 ::
            [errorUpdate e])]
          rw [show List.filterMap (·.pct) (processingUpdate "translate" 75 ::
              processingUpdate "build_epub" 85 :: [errorUpdate e])
            = [(75:ℚ), 85] from rfl]
          exact chain_pcts_shape _ hch hb [75, 85]
            (by norm_num [List.chain'_cons])
            (by intro y hy; simp at hy; subst hy; norm_num)
            (by intro q hq; simp at hq; rcases hq with rfl | rfl <;> norm_num)
        · dsimp only
          rcases hfl : env.flashcards_result with e | u3
          · dsimp only
            rw [hfm (processingUpdate "translate" 75 :: processingUpdate "build_epub" 85 ::
              processingUpdate "build_epub" 95 :: processingUpdate "flashcards" 96 ::
              [errorUpdate e])]
            rw [show List.filterMap (·.pct) (processingUpdate "translate" 75 ::
                processingUpdate "build_epub" 85 :: processingUpdate "build_epub" 95 ::
                processingUpdate "flashcards" 96 :: [errorUpdate e])
              = [(75:ℚ), 85, 95, 96] from rfl]
            exact chain_pcts_shape _ hch hb [75, 85, 95, 96]
              (by norm_num [List.chain'_cons])
              (by intro y hy; simp at hy; subst hy; norm_num)
              (by intro q hq; simp at hq; rcases hq with rfl | rfl | rfl | rfl <;> norm_num)
          · dsimp only
            rw [hfm (processingUpdate "translate" 75 :: processingUpdate "build_epub" 85 ::
              processingUpdate "build_epub" 95 :: processingUpdate "flashcards" 96 ::
              [processingUpdate "flashcards" 98, doneUpdate])]
            rw [show List.filterMap (·.pct) (processingUpdate "translate" 75 ::
                processingUpdate "build_epub" 85 :: processingUpdate "build_epub" 95 ::
                processingUpdate "flashcards" 96 ::
                [processingUpdate "flashcards" 98, doneUpdate])
              = [(75:ℚ), 85, 95, 96, 98, 100] from rfl]
            exact chain_pcts_shape _ hch hb [75, 85, 95, 96, 98, 100]
              (by norm_num [List.chain'_cons])
              (by intro y hy; simp at hy; subst hy; norm_num)
              (by intro q hq; simp at hq;
                  rcases hq with rfl | rfl | rfl | rfl | rfl | rfl <;> norm_num)

/-- Witness for C6 at a concrete successful run (identity provider,
single extracted paragraph): its persisted percentages are
non-decreasing and within [0, 100]. -/
theorem pipeline_progress_monotone_and_bounded_witness :
    List.Chain' (· ≤ ·)
        ((run_pipeline_trace
            ⟨.ok (), .ok ["hi"], fun b => .ok b, .ok (), .ok ()⟩).filterMap (·.pct))
    ∧ ∀ q ∈ (run_pipeline_trace
            ⟨.ok (), .ok ["hi"], fun b => .ok b, .ok (), .ok ()⟩).filterMap (·.pct),
        0 ≤ q ∧ q ≤ 100 :=
  pipeline_progress_monotone_and_bounded ⟨.ok (), .ok ["hi"], fun b => .ok b, .ok (), .ok ()⟩

end KindlePdf
